import Mathlib

/-
Verification of SublimeDeclarativeSettings.py: a shallow embedding of the
DeclarativeSettingsMixin class (declarative settings loading for Sublime
Text plugin components) together with theorems about the embedded code.

The embedding models Python values that can occur in a setting entry tree
(including the host settings-store object itself, which is a first-class
value), the bound object's single instance namespace — `setattr` writes
the same dictionary that `self._settings_obj` and
`self._settings_update_time` are read from, so a leaf attribute named
`_settings_obj` clobbers the store reference exactly as in Python — and
the side effects of a load call (attribute assignments, change-handler
registrations, scheduled timeouts, raised exceptions).
-/

set_option maxHeartbeats 1000000

namespace DeclSettings

mutual
/-- Python values occurring in setting entry trees and in the instance
namespace: strings, integers, booleans, None, Ellipsis, tuples, and the
host settings-store object returned by `sublime.load_settings` (carried
by its key-value content). Tuples carry a `PyList` and stores a
`PyPairs`, mutual inductive copies of lists, so that all recursion is
plain structural recursion. -/
inductive PyVal where
  | pstr (s : String)
  | pint (n : Int)
  | pbool (b : Bool)
  | pnone
  | ellipsis
  | ptuple (xs : PyList)
  | pstore (data : PyPairs)
deriving DecidableEq
inductive PyList where
  | nil
  | cons (x : PyVal) (xs : PyList)
deriving DecidableEq
inductive PyPairs where
  | pnil
  | pcons (k v : PyVal) (rest : PyPairs)
deriving DecidableEq
end

/-- Length of an embedded tuple payload, mirroring Python `len` on tuples. -/
def PyList.length : PyList → Nat
  | .nil => 0
  | .cons _ xs => 1 + xs.length

/-- First element of a tuple payload, with a fallback for the empty case
(only consulted when the length is known positive). -/
def PyList.headD : PyList → PyVal → PyVal
  | .nil, d => d
  | .cons x _, _ => x

/-- Python exceptions that the embedded code can raise. -/
inductive PyErr where
  | typeError (msg : String)
  | attributeError (msg : String)
  | valueError (msg : String)
deriving DecidableEq

/-- Python type name of a value, as used by `type(entry)` in error text. -/
def typeName : PyVal → String
  | .pstr _ => "str"
  | .pint _ => "int"
  | .pbool _ => "bool"
  | .pnone => "NoneType"
  | .ellipsis => "ellipsis"
  | .ptuple _ => "tuple"
  | .pstore _ => "Settings"

/-- Whether Python `len` is defined on the value (strings and tuples in
this model; the sublime Settings object defines no `__len__`). -/
def hasLen : PyVal → Bool
  | .pstr _ => true
  | .ptuple _ => true
  | _ => false

/-- Message of the TypeError Python raises when `len` is applied to a
value without `__len__`. -/
def noLenMsg (v : PyVal) : String :=
  "object of type \x27" ++ typeName v ++ "\x27 has no len()"

mutual
/-- Modelled from the Python standard library: `pprint.pformat` on the
small values used here coincides with `repr`; string quoting is rendered
with the same single-quote character as CPython, and the opaque Settings
object prints as its repr with the address omitted. -/
def pyRepr : PyVal → String
  | .pstr s => "\x27" ++ s ++ "\x27"
  | .pint n => toString n
  | .pbool b => if b then "True" else "False"
  | .pnone => "None"
  | .ellipsis => "Ellipsis"
  | .ptuple .nil => "()"
  | .ptuple (.cons x .nil) => "(" ++ pyRepr x ++ ",)"
  | .ptuple (.cons x (.cons y ys)) =>
      "(" ++ pyRepr x ++ pyReprRest (.cons y ys) ++ ")"
  | .pstore _ => "<sublime.Settings object>"
def pyReprRest : PyList → String
  | .nil => ""
  | .cons x xs => ", " ++ pyRepr x ++ pyReprRest xs
end

/-- Message of the TypeError raised explicitly by `_load_entry` for a bad
entry, from the format string at lines 131-136 of the source. -/
def badEntryMsg (v : PyVal) : String :=
  "Bad setting entry type: <class \x27" ++ typeName v ++ "\x27>\n" ++
  "Entry representation:\n" ++ pyRepr v

/-- Lookup of a key in the store content. -/
def pairsLookup : PyPairs → PyVal → Option PyVal
  | .pnil, _ => none
  | .pcons k v rest, q => if k = q then some v else pairsLookup rest q

/-- Host API `store.get(key, default)` on the store content. -/
def storeGet (data : PyPairs) (k d : PyVal) : PyVal :=
  (pairsLookup data k).getD d

/-- Change-notification handlers that the code registers via
`add_on_change`: either the per-leaf closure `lambda: process_setting_entry(entry)`
(sparse mode) or the shared `update_handler` closure, which captures the
whole entry tree and the two flags. -/
inductive Handler where
  | sparse (entry : PyVal)
  | shared (entryTree : PyVal) (installUpdateHandler : Bool) (sparse : Bool)
deriving DecidableEq

/-- Deferred callbacks passed to `sublime.set_timeout`: the `_loader`
retry closure from `load_settings` (delay 500), and the bound method
`self.__reload_settings` scheduled with no arguments by
`__delay_reload_settings` (delay 2). -/
inductive Timeout where
  | loader (settingsFile : String) (etree : PyVal)
      (autoUpdate : Bool) (sparseUpdate : Bool) (delayMs : Nat)
  | reloadSettingsNoArgs (delayMs : Nat)
deriving DecidableEq

/-- The bound object (the mixin-consuming instance): its single instance
namespace `attrs` — holding the dynamically assigned setting attributes
AND the `_settings_obj` / `_settings_update_time` slots, exactly as in
Python, where `setattr` writes the one instance dictionary — plus the
class-level `setting_entries` value, which an instance attribute of the
same name shadows. An absent key in `attrs` models an attribute never
having been assigned. -/
structure Obj where
  attrs : List (String × PyVal)
  settingEntries : PyVal
deriving DecidableEq

/-- A fresh instance: empty instance namespace, `setting_entries` at its
declared class default, the empty tuple. -/
def obj0 : Obj :=
  ⟨[], .ptuple .nil⟩

/-- Assignment into the instance namespace (Python `setattr` /
attribute assignment): overwrites the binding when the name exists,
appends otherwise. -/
def setAttrList : List (String × PyVal) → String → PyVal → List (String × PyVal)
  | [], a, v => [(a, v)]
  | (b, w) :: rest, a, v =>
      if b = a then (a, v) :: rest else (b, w) :: setAttrList rest a v

/-- Attribute assignment on the bound object. -/
def setAttr (st : Obj) (a : String) (v : PyVal) : Obj :=
  ⟨setAttrList st.attrs a v, st.settingEntries⟩

/-- Reading a name from the instance namespace. -/
def getAttr : List (String × PyVal) → String → Option PyVal
  | [], _ => none
  | (b, w) :: rest, a => if b = a then some w else getAttr rest a

/-- Python attribute lookup for `self.setting_entries`: the instance
namespace first, falling back to the class attribute. -/
def objSettingEntries (st : Obj) : PyVal :=
  (getAttr st.attrs "setting_entries").getD st.settingEntries

/-- Whether a value is a Python string. -/
def isStringVal : PyVal → Bool
  | .pstr _ => true
  | _ => false

/-- Whether a value is the host settings-store object. -/
def isStoreVal : PyVal → Bool
  | .pstore _ => true
  | _ => false

/-- Whether a value is a live `_settings_obj` slot content: the store
object or None (the two values the mixin itself ever assigns there). -/
def isStoreOrNone : PyVal → Bool
  | .pnone => true
  | .pstore _ => true
  | _ => false

/-- Embedding of the local predicate `_is_setting_entry` (lines 105-109):
`len(entry) == 3 and isinstance(entry[0], str)`. Python `len` raises a
TypeError on values without `__len__`, which short-circuits the whole
check; a 3-character string passes, since indexing a string yields a
(one-character) string. -/
def is_setting_entry (entry : PyVal) : Except PyErr Bool :=
  match entry with
  | .pstr s => .ok (decide (s.length = 3))
  | .ptuple xs => .ok (decide (xs.length = 3) && isStringVal (xs.headD .pnone))
  | v => .error (.typeError (noLenMsg v))

/-- Python unpacking `attribute, key, default = entry` of a 3-element
tuple or 3-character string; `none` when the value does not unpack into
exactly three components. -/
def unpack3 : PyVal → Option (PyVal × PyVal × PyVal)
  | .ptuple (.cons x (.cons y (.cons z .nil))) => some (x, y, z)
  | .pstr s =>
      match s.data with
      | [c1, c2, c3] =>
          some (.pstr (String.mk [c1]), .pstr (String.mk [c2]), .pstr (String.mk [c3]))
      | _ => none
  | _ => none

/-- Message of the AttributeError raised when `self._settings_obj` is
read before any assignment. -/
def noSettingsObjMsg : String :=
  "object has no attribute \x27_settings_obj\x27"

/-- Message of the AttributeError raised when `.get` is looked up on a
`_settings_obj` slot holding neither the store nor None (a leaf of the
tree clobbered it). -/
def noGetMsg (v : PyVal) : String :=
  "\x27" ++ typeName v ++ "\x27 object has no attribute \x27get\x27"

/-- Message of the AttributeError raised when `add_on_change` is looked
up on a captured `settings_obj` that is not the store object. -/
def noAddOnChangeMsg (v : PyVal) : String :=
  "\x27" ++ typeName v ++ "\x27 object has no attribute \x27add_on_change\x27"

/-- Message of the AttributeError raised by `__delay_reload_settings`
when `_settings_update_time` has never been assigned. -/
def noUpdateTimeMsg : String :=
  "object has no attribute \x27_settings_update_time\x27"

/-- Message of the TypeError raised when `__delay_reload_settings` is
called with extra positional arguments (the method accepts only `self`). -/
def delayReloadArityMsg (argCount : Nat) : String :=
  "_DeclarativeSettingsMixin__delay_reload_settings() takes 1 positional argument but " ++
  toString (argCount + 1) ++ " were given"

/-- Message of the TypeError raised when `current_time - v` is evaluated
against a non-numeric `_settings_update_time` slot. -/
def subOperandMsg (v : PyVal) : String :=
  "unsupported operand type(s) for -: \x27float\x27 and \x27" ++ typeName v ++ "\x27"

/-- Embedding of `process_setting_entry` (lines 78-93): read
`self._settings_obj` from the instance namespace (AttributeError when
never assigned), unpack the entry, substitute the attribute name for an
omitted key (empty string or `Ellipsis`), then assign either the default
(slot is None) or `settings_obj.get(key, default)` — an AttributeError
when the slot holds neither the store nor None, because `.get` does not
exist on such a value. Returns the resolved key alongside the updated
object, as the source returns `key`. -/
def process_setting_entry (st : Obj) (entry : PyVal) : Except PyErr (Obj × PyVal) :=
  match getAttr st.attrs "_settings_obj" with
  | none => .error (.attributeError noSettingsObjMsg)
  | some settingsObj =>
      match unpack3 entry with
      | none =>
          if hasLen entry then .error (.valueError "not enough values to unpack")
          else .error (.typeError ("cannot unpack non-iterable " ++ typeName entry ++ " object"))
      | some (attrV, k, d) =>
          match attrV with
          | .pstr a =>
              let key := if k = PyVal.pstr "" ∨ k = PyVal.ellipsis then PyVal.pstr a else k
              match settingsObj with
              | .pnone => .ok (setAttr st a d, key)
              | .pstore data => .ok (setAttr st a (storeGet data key d), key)
              | other => .error (.attributeError (noGetMsg other))
          | _ => .error (.typeError "attribute name must be string")

/-- Outcome of one `_load_entry` walk: the updated object, the
`add_on_change` registrations made (token, handler) in order, and the
exception propagating out of the walk, if any. Side effects performed
before the exception was raised are retained. -/
structure WalkResult where
  obj : Obj
  regs : List (PyVal × Handler)
  err : Option PyErr
deriving DecidableEq

mutual
/-- Embedding of the recursive `_load_entry` (lines 113-136), with
`captured` the `settings_obj` local captured once by `__reload_settings`
at line 98 (so mid-walk clobbering of `self._settings_obj` does not
affect which object `add_on_change` is called on), `install`/`sparse`
the closure parameters, and `sharedH` the shared `update_handler`
closure stored on `_load_entry.update_handler`. -/
def load_entry (captured : PyVal) (install sparse : Bool) (sharedH : Handler)
    (entry : PyVal) (st : Obj) : WalkResult :=
  match is_setting_entry entry with
  | .error e => ⟨st, [], some e⟩
  | .ok true =>
      match process_setting_entry st entry with
      | .error e => ⟨st, [], some e⟩
      | .ok (st', _processedKey) =>
          if install then
            let h := if sparse then Handler.sparse entry else sharedH
            if isStoreVal captured then ⟨st', [(entry, h)], none⟩
            else ⟨st', [], some (.attributeError (noAddOnChangeMsg captured))⟩
          else ⟨st', [], none⟩
  | .ok false =>
      match entry with
      | .ptuple xs => load_entry_list captured install sparse sharedH xs st
      | _ => ⟨st, [], some (.typeError (badEntryMsg entry))⟩
/-- The `for sub_entry in entry` loop of `_load_entry`: process the
elements left to right, stopping at the first exception. -/
def load_entry_list (captured : PyVal) (install sparse : Bool) (sharedH : Handler)
    (entries : PyList) (st : Obj) : WalkResult :=
  match entries with
  | .nil => ⟨st, [], none⟩
  | .cons x rest =>
      match load_entry captured install sparse sharedH x st with
      | ⟨st1, regs1, some e⟩ => ⟨st1, regs1, some e⟩
      | ⟨st1, regs1, none⟩ =>
          let r := load_entry_list captured install sparse sharedH rest st1
          ⟨r.obj, regs1 ++ r.regs, r.err⟩
end

/-- Embedding of `__reload_settings` (lines 95-139): capture
`self._settings_obj` once (an AttributeError when never assigned), build
the shared `update_handler` closure, and run the recursive walk over the
tree. -/
def reload_settings (st : Obj) (entryTree : PyVal)
    (installUpdateHandler sparse : Bool) : WalkResult :=
  match getAttr st.attrs "_settings_obj" with
  | none => ⟨st, [], some (.attributeError noSettingsObjMsg)⟩
  | some so =>
      load_entry so installUpdateHandler sparse
        (Handler.shared entryTree installUpdateHandler sparse) entryTree st

/-- Outcome of one `load_settings` call: updated object, registrations,
timeouts scheduled via `sublime.set_timeout`, and the propagating
exception, if any. -/
structure LoadResult where
  obj : Obj
  regs : List (PyVal × Handler)
  sched : List Timeout
  err : Option PyErr
deriving DecidableEq

/-- Embedding of `load_settings` (lines 28-76). `ready` is the global
`API_READY` flag, `host` is `sublime.load_settings` (name to store
content). The tree defaults to `self.setting_entries` (instance
namespace shadowing the class attribute). When ready: assign the freshly
loaded store object into the `_settings_obj` slot of the one instance
namespace and walk the tree with the caller's flags. When not ready:
assign None into that slot, walk the tree with default flags (assigning
defaults), then schedule the `_loader` retry closure after 500 ms; the
`set_timeout` line is not reached when the walk raises. -/
def load_settings (ready : Bool) (host : String → PyPairs) (settingsFile : String)
    (entryTree : Option PyVal) (autoUpdate sparseUpdate : Bool) (st : Obj) : LoadResult :=
  let etree := entryTree.getD (objSettingEntries st)
  if ready then
    let st1 := setAttr st "_settings_obj" (.pstore (host settingsFile))
    let r := reload_settings st1 etree autoUpdate sparseUpdate
    ⟨r.obj, r.regs, [], r.err⟩
  else
    let st1 := setAttr st "_settings_obj" .pnone
    let r := reload_settings st1 etree false false
    match r.err with
    | some e => ⟨r.obj, r.regs, [], some e⟩
    | none =>
        ⟨r.obj, r.regs, [Timeout.loader settingsFile etree autoUpdate sparseUpdate 500], none⟩

/-- Outcome of invoking a deferred callback or change handler. -/
structure CallResult where
  obj : Obj
  sched : List Timeout
  err : Option PyErr
deriving DecidableEq

/-- Embedding of the body of `__delay_reload_settings` (lines 144-150):
read `time.clock()` (passed in as `now`, times modelled as integers),
compare against `self._settings_update_time`, and when the difference
exceeds 2, refresh the timestamp and schedule `self.__reload_settings`
(with no arguments) after 2 ms. Reading `_settings_update_time` raises
AttributeError when the slot was never assigned, which is the case on
every reachable path: no code in the class ever writes it before this
read. -/
def delay_reload_settings_body (now : Int) (st : Obj) : CallResult :=
  match getAttr st.attrs "_settings_update_time" with
  | none => ⟨st, [], some (.attributeError noUpdateTimeMsg)⟩
  | some (.pint t) =>
      if 2 < |now - t| then
        ⟨setAttr st "_settings_update_time" (.pint now),
         [Timeout.reloadSettingsNoArgs 2], none⟩
      else ⟨st, [], none⟩
  | some v => ⟨st, [], some (.typeError (subOperandMsg v))⟩

/-- A Python-level call of `self.__delay_reload_settings` with `argCount`
extra positional arguments: the `def` at line 144 declares no parameters
besides `self`, so any extra argument makes the call itself raise a
TypeError before the body runs. -/
def delay_reload_settings_call (now : Int) (argCount : Nat) (st : Obj) : CallResult :=
  if argCount = 0 then delay_reload_settings_body now st
  else ⟨st, [], some (.typeError (delayReloadArityMsg argCount))⟩

/-- Invocation of a registered change handler. The sparse closure runs
`process_setting_entry(entry)` on the current object (reading the
then-current `_settings_obj` slot). The shared `update_handler` closure
(lines 100-103) calls
`self.__delay_reload_settings(entry_tree, install_update_handler, sparse)`,
passing three positional arguments. -/
def invokeHandler (now : Int) (h : Handler) (st : Obj) : CallResult :=
  match h with
  | .sparse e =>
      match process_setting_entry st e with
      | .error er => ⟨st, [], some er⟩
      | .ok (st', _k) => ⟨st', [], none⟩
  | .shared _tree _install _sp => delay_reload_settings_call now 3 st

/-- Firing a scheduled timeout. The `_loader` closure re-invokes
`load_settings` with the captured file name, resolved tree and flags
(lines 71-76). The zero-argument `self.__reload_settings` scheduled by
`__delay_reload_settings` raises a TypeError when fired, since
`__reload_settings` requires the positional `entry_tree` argument. -/
def runTimeout (ready : Bool) (host : String → PyPairs) (t : Timeout) (st : Obj) :
    LoadResult :=
  match t with
  | .loader file etree au sp _d => load_settings ready host file (some etree) au sp st
  | .reloadSettingsNoArgs _d =>
      ⟨st, [], [],
       some (.typeError "_DeclarativeSettingsMixin__reload_settings() missing 1 required positional argument: entry_tree")⟩

/-- Leaf test as a plain Boolean: the shapes for which
`_is_setting_entry` returns `True` (length 3 and string first element). -/
def isLeafFormB : PyVal → Bool
  | .pstr s => decide (s.length = 3)
  | .ptuple xs => decide (xs.length = 3) && isStringVal (xs.headD .pnone)
  | _ => false

/-- Whether a value is a Python tuple. -/
def isTupleVal : PyVal → Bool
  | .ptuple _ => true
  | _ => false

mutual
/-- The trees on which the recursive walk itself never hits a malformed
node: a node is accepted when it is a leaf form, or a tuple all of whose
elements are accepted. -/
def accepted : PyVal → Bool
  | .pstr s => decide (s.length = 3)
  | .ptuple xs =>
      (decide (xs.length = 3) && isStringVal (xs.headD .pnone)) || acceptedList xs
  | _ => false
/-- All elements of a tuple payload are accepted. -/
def acceptedList : PyList → Bool
  | .nil => true
  | .cons x rest => accepted x && acceptedList rest
end

mutual
/-- The leaf nodes of a tree in depth-first walk order: the nodes the
walk treats as setting entries. -/
def leafNodes : PyVal → List PyVal
  | .pstr s => if s.length = 3 then [.pstr s] else []
  | .ptuple xs =>
      if isLeafFormB (.ptuple xs) then [.ptuple xs] else leafNodesList xs
  | _ => []
/-- Leaf nodes of the elements of a tuple payload, concatenated. -/
def leafNodesList : PyList → List PyVal
  | .nil => []
  | .cons x rest => leafNodes x ++ leafNodesList rest
end

/-- The (attribute, key, default) data of a leaf node, when the node
unpacks into three components with a string first component. -/
def leafData (v : PyVal) : Option (String × PyVal × PyVal) :=
  match unpack3 v with
  | some (.pstr a, k, d) => some (a, k, d)
  | _ => none

/-- The leaf data of a tree in depth-first walk order. -/
def leafTriples (t : PyVal) : List (String × PyVal × PyVal) :=
  (leafNodes t).filterMap leafData

/-- Key-name sentinel substitution of `process_setting_entry`: an omitted
key (empty string or Ellipsis) is replaced by the attribute name. -/
def resolveKey (a : String) (k : PyVal) : PyVal :=
  if k = PyVal.pstr "" ∨ k = PyVal.ellipsis then PyVal.pstr a else k

/-- The value a leaf resolves to against a given `_settings_obj` slot
content: `store.get(key, default)` against the store object, the default
alone against None. -/
def resolveLeaf (so : PyVal) (a : String) (k d : PyVal) : PyVal :=
  match so with
  | .pstore data => storeGet data (resolveKey a k) d
  | _ => d

/-- Sequential assignment of resolved leaf values into an instance
namespace, in walk order (later assignments overwrite earlier ones). -/
def assignAll (so : PyVal) :
    List (String × PyVal × PyVal) → List (String × PyVal) → List (String × PyVal)
  | [], attrs => attrs
  | (a, k, d) :: rest, attrs =>
      assignAll so rest (setAttrList attrs a (resolveLeaf so a k d))

/-- The registrations the walk performs for a given list of leaf nodes:
one per leaf when installing (the per-leaf closure in sparse mode, the
shared closure otherwise), none when not installing. -/
def regsOf (install sparse : Bool) (sharedH : Handler) (l : List PyVal) :
    List (PyVal × Handler) :=
  if install then
    l.map (fun e => (e, if sparse then Handler.sparse e else sharedH))
  else []

mutual
/-- Nesting depth of a tree: the recursion depth `_load_entry` needs. -/
def pyDepth : PyVal → Nat
  | .ptuple xs => pyDepthList xs + 1
  | _ => 1
/-- Maximal depth over a tuple payload. -/
def pyDepthList : PyList → Nat
  | .nil => 0
  | .cons x rest => max (pyDepth x) (pyDepthList rest)
end

mutual
/-- Fuel-indexed variant of `load_entry`: each recursive descent into a
sub-tree consumes one unit of fuel (one Python stack frame), and `none`
models running out of stack. Used to state that the walk terminates
within depth-bounded fuel on every finite tree. -/
def load_entry_fuel (fuel : Nat) (captured : PyVal) (install sparse : Bool)
    (sharedH : Handler) (entry : PyVal) (st : Obj) : Option WalkResult :=
  match fuel with
  | 0 => none
  | n + 1 =>
      match is_setting_entry entry with
      | .error e => some ⟨st, [], some e⟩
      | .ok true =>
          match process_setting_entry st entry with
          | .error e => some ⟨st, [], some e⟩
          | .ok (st', _processedKey) =>
              if install then
                let h := if sparse then Handler.sparse entry else sharedH
                if isStoreVal captured then some ⟨st', [(entry, h)], none⟩
                else some ⟨st', [], some (.attributeError (noAddOnChangeMsg captured))⟩
              else some ⟨st', [], none⟩
      | .ok false =>
          match entry with
          | .ptuple xs => load_entry_list_fuel n captured install sparse sharedH xs st
          | _ => some ⟨st, [], some (.typeError (badEntryMsg entry))⟩
termination_by (fuel, 0)
/-- Fuel-indexed variant of the element loop; iterating the loop itself
consumes no fuel, matching Python, where the `for` loop stays in the
same stack frame. -/
def load_entry_list_fuel (fuel : Nat) (captured : PyVal) (install sparse : Bool)
    (sharedH : Handler) (entries : PyList) (st : Obj) : Option WalkResult :=
  match entries with
  | .nil => some ⟨st, [], none⟩
  | .cons x rest =>
      match load_entry_fuel fuel captured install sparse sharedH x st with
      | none => none
      | some ⟨st1, regs1, some e⟩ => some ⟨st1, regs1, some e⟩
      | some ⟨st1, regs1, none⟩ =>
          match load_entry_list_fuel fuel captured install sparse sharedH rest st1 with
          | none => none
          | some r => some ⟨r.obj, regs1 ++ r.regs, r.err⟩
termination_by (fuel, sizeOf entries + 1)
end

/-- Replace the instance namespace of an object, keeping the class-level
field; the walk only ever writes the namespace. -/
def withAttrs (st : Obj) (ats : List (String × PyVal)) : Obj :=
  ⟨ats, st.settingEntries⟩

/-- Leaf data of the elements of a tuple payload, concatenated. -/
def leafTriplesList (xs : PyList) : List (String × PyVal × PyVal) :=
  (leafNodesList xs).filterMap leafData

/-- Attribute names declared by the leaves of a tree, in walk order. -/
def leafAttrNames (t : PyVal) : List String :=
  (leafTriples t).map (fun q => q.1)

/-- Shorthand for building a leaf entry tuple `(a, k, d)`. -/
def mkLeaf (a : String) (k d : PyVal) : PyVal :=
  .ptuple (.cons (.pstr a) (.cons k (.cons d .nil)))

/-- Shorthand for a 1-tuple tree node. -/
def tup1 (x : PyVal) : PyVal :=
  .ptuple (.cons x .nil)

/-- Shorthand for a 2-tuple tree node. -/
def tup2 (x y : PyVal) : PyVal :=
  .ptuple (.cons x (.cons y .nil))

/-- A host whose stores are all empty: every `get` falls back to the
default. -/
def host0 : String → PyPairs := fun _ => .pnil

/-- A host serving, for every file name, a store binding key `x` to 10. -/
def hostX : String → PyPairs := fun _ => .pcons (.pstr "x") (.pint 10) .pnil

/-- Sample leaf declaring attribute `a` with key `k` and default 5. -/
def leafA : PyVal := mkLeaf "a" (.pstr "k") (.pint 5)

/-- Sample leaf declaring attribute `b` with omitted key and default 6. -/
def leafB : PyVal := mkLeaf "b" (.pstr "") (.pint 6)

/-- A flat tree with two distinct leaves. -/
def pairTree : PyVal := tup2 leafA leafB

/-- A nested tree: a leaf next to a sub-tree holding another leaf. -/
def nestedTree : PyVal := tup2 leafA (tup1 leafB)

/-- A perfectly well-formed leaf whose attribute name collides with the
mixin's own `_settings_obj` slot: loading it clobbers the store
reference. -/
def collisionLeaf : PyVal := mkLeaf "_settings_obj" (.pstr "") (.pint 99)

/-- A valid single-leaf tree clobbering the store reference. -/
def collisionOnly : PyVal := tup1 collisionLeaf

/-- Assigning then reading the instance namespace behaves like a map
update. -/
theorem getAttr_setAttrList (l : List (String × PyVal)) (a : String) (v : PyVal)
    (b : String) :
    getAttr (setAttrList l a v) b = if a = b then some v else getAttr l b := by
  induction l with
  | nil =>
      by_cases hab : a = b <;> simp [setAttrList, getAttr, hab]
  | cons p rest ih =>
      obtain ⟨c, w⟩ := p
      by_cases hca : c = a
      · subst hca
        by_cases hab : c = b <;> simp [setAttrList, getAttr, hab]
      · by_cases hcb : c = b
        · subst hcb
          simp [setAttrList, getAttr, hca]
          rw [if_neg (fun h => hca h.symm)]
        · simp [setAttrList, getAttr, hca, hcb, ih]

/-- Sequential assignment splits over list append. -/
theorem assignAll_append (so : PyVal) (l1 l2 : List (String × PyVal × PyVal))
    (attrs : List (String × PyVal)) :
    assignAll so (l1 ++ l2) attrs = assignAll so l2 (assignAll so l1 attrs) := by
  induction l1 generalizing attrs with
  | nil => rfl
  | cons q rest ih =>
      obtain ⟨a, k, d⟩ := q
      simp [assignAll, ih]

/-- Reading a name after sequentially assigning a list of leaves: the
value comes from the last leaf in the list declaring that name, and from
the original namespace when no leaf declares it. -/
theorem getAttr_assignAll (so : PyVal) (l : List (String × PyVal × PyVal))
    (attrs : List (String × PyVal)) (b : String) :
    getAttr (assignAll so l attrs) b =
      match l.reverse.find? (fun q => decide (q.1 = b)) with
      | some q => some (resolveLeaf so q.1 q.2.1 q.2.2)
      | none => getAttr attrs b := by
  induction l generalizing attrs with
  | nil => simp [assignAll]
  | cons q rest ih =>
      obtain ⟨a, k, d⟩ := q
      rw [show assignAll so ((a, k, d) :: rest) attrs
            = assignAll so rest (setAttrList attrs a (resolveLeaf so a k d)) from rfl,
          ih, List.reverse_cons, List.find?_append]
      cases hfind : rest.reverse.find? (fun q => decide (q.1 = b)) with
      | some q => simp
      | none =>
          by_cases hab : a = b <;>
            simp [List.find?, hab, getAttr_setAttrList]

/-- A name declared by no leaf of the list is untouched by the
sequential assignment. -/
theorem getAttr_assignAll_notin (so : PyVal) (l : List (String × PyVal × PyVal))
    (attrs : List (String × PyVal)) (name : String)
    (h : name ∉ l.map (fun q => q.1)) :
    getAttr (assignAll so l attrs) name = getAttr attrs name := by
  rw [getAttr_assignAll]
  rw [show l.reverse.find? (fun q => decide (q.1 = name)) = none from
    List.find?_eq_none.mpr (fun x hx => by
      simp only [decide_eq_true_eq]
      intro hEq
      exact h (List.mem_map.mpr ⟨x, List.mem_reverse.mp hx, hEq⟩))]

/-- Every node of leaf form carries leaf data, is classified as a
setting entry by the walk, constitutes its own single leaf, and — when
the `_settings_obj` slot holds the store or None — is processed by
`process_setting_entry` into one namespace assignment with the
sentinel-resolved key. -/
theorem leafForm_shape (v : PyVal) (h : isLeafFormB v = true) :
    ∃ a k d, leafData v = some (a, k, d) ∧
      is_setting_entry v = .ok true ∧
      leafNodes v = [v] ∧
      leafTriples v = [(a, k, d)] ∧
      ∀ st so, getAttr st.attrs "_settings_obj" = some so →
        isStoreOrNone so = true →
        process_setting_entry st v =
          .ok (setAttr st a (resolveLeaf so a k d), resolveKey a k) := by
  cases v with
  | pstr s =>
      obtain ⟨data⟩ := s
      have hd : data.length = 3 := by
        simpa [isLeafFormB, String.length] using h
      rw [List.length_eq_three] at hd
      obtain ⟨c1, c2, c3, rfl⟩ := hd
      refine ⟨String.mk [c1], .pstr (String.mk [c2]), .pstr (String.mk [c3]),
        rfl, rfl, rfl, rfl, ?_⟩
      intro st so hso hval
      cases so <;> simp [isStoreOrNone] at hval <;>
        simp [process_setting_entry, unpack3, hso, resolveLeaf, resolveKey]
  | ptuple xs =>
      cases xs with
      | nil => simp [isLeafFormB, PyList.length] at h
      | cons x1 xs1 =>
          cases xs1 with
          | nil => simp [isLeafFormB, PyList.length] at h
          | cons x2 xs2 =>
              cases xs2 with
              | nil => simp [isLeafFormB, PyList.length] at h
              | cons x3 xs3 =>
                  cases xs3 with
                  | cons x4 xs4 =>
                      simp [isLeafFormB, PyList.length] at h
                      omega
                  | nil =>
                      cases x1 with
                      | pstr a =>
                          refine ⟨a, x2, x3, rfl, ?_, ?_, rfl, ?_⟩
                          · simp [is_setting_entry, PyList.length, PyList.headD,
                              isStringVal]
                          · simp [leafNodes, isLeafFormB, PyList.length, PyList.headD,
                              isStringVal]
                          · intro st so hso hval
                            cases so <;> simp [isStoreOrNone] at hval <;>
                              simp [process_setting_entry, unpack3, hso, resolveLeaf,
                                resolveKey]
                      | pint n => simp [isLeafFormB, PyList.headD, isStringVal] at h
                      | pbool b => simp [isLeafFormB, PyList.headD, isStringVal] at h
                      | pnone => simp [isLeafFormB, PyList.headD, isStringVal] at h
                      | ellipsis => simp [isLeafFormB, PyList.headD, isStringVal] at h
                      | ptuple ys => simp [isLeafFormB, PyList.headD, isStringVal] at h
                      | pstore d2 => simp [isLeafFormB, PyList.headD, isStringVal] at h
  | pint n => simp [isLeafFormB] at h
  | pbool b => simp [isLeafFormB] at h
  | pnone => simp [isLeafFormB] at h
  | ellipsis => simp [isLeafFormB] at h
  | pstore d2 => simp [isLeafFormB] at h

/-- On values supporting `len`, the entry test returns the leaf-form
Boolean. -/
theorem is_setting_entry_eq (v : PyVal) (h : hasLen v = true) :
    is_setting_entry v = .ok (isLeafFormB v) := by
  cases v <;> simp [hasLen] at h ⊢ <;> rfl

/-- On values not supporting `len`, the entry test raises the `len`
TypeError. -/
theorem is_setting_entry_noLen (v : PyVal) (h : hasLen v = false) :
    is_setting_entry v = .error (.typeError (noLenMsg v)) := by
  cases v <;> simp [hasLen] at h ⊢ <;> rfl

/-- Replacing the instance namespace with itself is the identity. -/
theorem withAttrs_self (st : Obj) : withAttrs st st.attrs = st := rfl

/-- Namespace replacement composes by keeping the last namespace. -/
theorem withAttrs_withAttrs (st : Obj) (ats bts : List (String × PyVal)) :
    withAttrs (withAttrs st ats) bts = withAttrs st bts := rfl

/-- A successful `process_setting_entry` performs exactly one namespace
assignment, at the attribute name of the entry's leaf data. -/
theorem process_assigns (st : Obj) (e : PyVal) (st2 : Obj) (k2 : PyVal)
    (hp : process_setting_entry st e = .ok (st2, k2)) :
    ∃ a k0 d val, leafData e = some (a, k0, d) ∧ st2 = setAttr st a val := by
  unfold process_setting_entry at hp
  cases hso : getAttr st.attrs "_settings_obj" with
  | none => rw [hso] at hp; simp at hp
  | some so =>
      rw [hso] at hp
      cases hu : unpack3 e with
      | none =>
          rw [hu] at hp
          by_cases hl : hasLen e = true <;> simp [hl] at hp
      | some tr =>
          obtain ⟨attrV, k0, d⟩ := tr
          rw [hu] at hp
          cases attrV with
          | pstr a =>
              cases so with
              | pnone =>
                  simp at hp
                  exact ⟨a, k0, d, d, by simp [leafData, hu], hp.1.symm⟩
              | pstore data =>
                  simp at hp
                  exact ⟨a, k0, d, _, by simp [leafData, hu], hp.1.symm⟩
              | pstr s2 => simp at hp
              | pint n => simp at hp
              | pbool b => simp at hp
              | ellipsis => simp at hp
              | ptuple ys => simp at hp
          | pint n => simp at hp
          | pbool b => simp at hp
          | pnone => simp at hp
          | ellipsis => simp at hp
          | ptuple ys => simp at hp
          | pstore d2 => simp at hp

/-- Registrations split over list append. -/
theorem regsOf_append (i sp : Bool) (h : Handler) (l1 l2 : List PyVal) :
    regsOf i sp h (l1 ++ l2) = regsOf i sp h l1 ++ regsOf i sp h l2 := by
  cases i <;> simp [regsOf]

/-- Leaf data of a cons payload splits into head and tail parts. -/
theorem leafTriplesList_cons (x : PyVal) (rest : PyList) :
    leafTriplesList (.cons x rest) = leafTriples x ++ leafTriplesList rest := by
  simp [leafTriplesList, leafTriples, leafNodesList, List.filterMap_append]

/-- On a node of leaf form, when the `_settings_obj` slot holds the
store or None, the walk performs exactly the one namespace assignment
and (when installing with the store captured) the one registration
dictated by the leaf data. -/
theorem load_entry_leafForm (captured : PyVal) (i sp : Bool) (h : Handler)
    (v : PyVal) (st : Obj) (so : PyVal) (hleaf : isLeafFormB v = true)
    (hso : getAttr st.attrs "_settings_obj" = some so)
    (hval : isStoreOrNone so = true)
    (hcap : i = true → isStoreVal captured = true) :
    load_entry captured i sp h v st =
      ⟨withAttrs st (assignAll so (leafTriples v) st.attrs),
       regsOf i sp h (leafNodes v), none⟩ := by
  obtain ⟨a, k, d, hdata, hise, hnodes, htrip, hproc⟩ := leafForm_shape v hleaf
  rw [hnodes, htrip]
  cases v with
  | pstr s =>
      simp only [load_entry]
      rw [hise, hproc st so hso hval]
      cases i with
      | false => simp [regsOf, assignAll, setAttr, withAttrs]
      | true =>
          have hc := hcap rfl
          simp [regsOf, assignAll, setAttr, withAttrs, hc]
  | ptuple xs =>
      simp only [load_entry]
      rw [hise, hproc st so hso hval]
      cases i with
      | false => simp [regsOf, assignAll, setAttr, withAttrs]
      | true =>
          have hc := hcap rfl
          simp [regsOf, assignAll, setAttr, withAttrs, hc]
  | pint n => simp [isLeafFormB] at hleaf
  | pbool b => simp [isLeafFormB] at hleaf
  | pnone => simp [isLeafFormB] at hleaf
  | ellipsis => simp [isLeafFormB] at hleaf
  | pstore d2 => simp [isLeafFormB] at hleaf

/-- On a node of leaf form, a namespace slot the leaf does not declare is
left untouched, on every path, with no assumption about the
`_settings_obj` slot. -/
theorem load_entry_leafForm_preserves (captured : PyVal) (i sp : Bool) (h : Handler)
    (v : PyVal) (st : Obj) (name : String) (hleaf : isLeafFormB v = true)
    (hname : name ∉ leafAttrNames v) :
    getAttr (load_entry captured i sp h v st).obj.attrs name
      = getAttr st.attrs name := by
  obtain ⟨a, k, d, hdata, hise, hnodes, htrip, hproc⟩ := leafForm_shape v hleaf
  have hna : ¬ a = name := by
    intro hEq
    apply hname
    rw [leafAttrNames, htrip]
    simp [hEq]
  have hmain : ∀ st2 k2, process_setting_entry st v = .ok (st2, k2) →
      getAttr st2.attrs name = getAttr st.attrs name := by
    intro st2 k2 hp
    obtain ⟨a2, k02, d2, val, hdata2, hst2⟩ := process_assigns st v st2 k2 hp
    rw [hdata] at hdata2
    simp only [Option.some.injEq, Prod.mk.injEq] at hdata2
    obtain ⟨h1, h2, h3⟩ := hdata2
    subst h1
    rw [hst2]
    simp only [setAttr]
    rw [getAttr_setAttrList, if_neg hna]
  cases v with
  | pstr s =>
      simp only [load_entry]
      rw [hise]
      cases hp : process_setting_entry st (.pstr s) with
      | error e => simp
      | ok pr =>
          obtain ⟨st2, k2⟩ := pr
          have hpres := hmain st2 k2 hp
          cases i <;> cases hcv : isStoreVal captured <;> simp [hcv, hpres]
  | ptuple xs =>
      simp only [load_entry]
      rw [hise]
      cases hp : process_setting_entry st (.ptuple xs) with
      | error e => simp
      | ok pr =>
          obtain ⟨st2, k2⟩ := pr
          have hpres := hmain st2 k2 hp
          cases i <;> cases hcv : isStoreVal captured <;> simp [hcv, hpres]
  | pint n => simp [isLeafFormB] at hleaf
  | pbool b => simp [isLeafFormB] at hleaf
  | pnone => simp [isLeafFormB] at hleaf
  | ellipsis => simp [isLeafFormB] at hleaf
  | pstore d2 => simp [isLeafFormB] at hleaf

/-- The walk writes only names declared by leaves of the tree: any other
namespace slot — in particular `_settings_obj` when no leaf declares it —
keeps its value, on every path, including the error paths of malformed
trees. -/
theorem load_entry_preserves_name (captured : PyVal) (i sp : Bool) (h : Handler) :
    ∀ v : PyVal, ∀ st name, name ∉ leafAttrNames v →
      getAttr (load_entry captured i sp h v st).obj.attrs name
        = getAttr st.attrs name := by
  intro v
  induction v using PyVal.rec
    (motive_2 := fun xs => ∀ st name,
      name ∉ (leafTriplesList xs).map (fun q => q.1) →
      getAttr (load_entry_list captured i sp h xs st).obj.attrs name
        = getAttr st.attrs name)
    (motive_3 := fun _ => True) with
  | pstr s =>
      intro st name hno
      by_cases hs3 : s.length = 3
      · exact load_entry_leafForm_preserves captured i sp h _ st name
          (by simp [isLeafFormB, hs3]) hno
      · have hise : is_setting_entry (.pstr s) = .ok false := by
          simp [is_setting_entry, hs3]
        simp only [load_entry]
        rw [hise]
  | pint n => intro st name hno; simp [load_entry, is_setting_entry]
  | pbool b => intro st name hno; simp [load_entry, is_setting_entry]
  | pnone => intro st name hno; simp [load_entry, is_setting_entry]
  | ellipsis => intro st name hno; simp [load_entry, is_setting_entry]
  | pstore d2 ihd => intro st name hno; simp [load_entry, is_setting_entry]
  | ptuple xs ihl =>
      intro st name hno
      cases hlf : isLeafFormB (.ptuple xs) with
      | true => exact load_entry_leafForm_preserves captured i sp h _ st name hlf hno
      | false =>
          have hise : is_setting_entry (.ptuple xs) = .ok false := by
            rw [is_setting_entry_eq (.ptuple xs) rfl, hlf]
          have hno2 : name ∉ (leafTriplesList xs).map (fun q => q.1) := by
            simpa [leafAttrNames, leafTriples, leafNodes, hlf, leafTriplesList]
              using hno
          simp only [load_entry]
          rw [hise]
          exact ihl st name hno2
  | nil =>
      rename_i st name hno
      simp [load_entry_list]
  | cons x rest ihx ihrest =>
      rename_i st name hno
      rw [show (leafTriplesList (PyList.cons x rest)).map (fun q => q.1)
            = (leafTriples x).map (fun q => q.1)
              ++ (leafTriplesList rest).map (fun q => q.1)
          from by rw [leafTriplesList_cons, List.map_append]] at hno
      simp only [List.mem_append, not_or] at hno
      obtain ⟨hno1, hno2⟩ := hno
      simp only [load_entry_list]
      cases hx : load_entry captured i sp h x st with
      | mk st1 regs1 err1 =>
          have hpx : getAttr st1.attrs name = getAttr st.attrs name := by
            have := ihx st name hno1
            rw [hx] at this
            exact this
          cases err1 with
          | some e => simpa using hpx
          | none =>
              simp only []
              rw [ihrest st1 name hno2, hpx]
  | pnil => trivial
  | pcons k v rest ihk ihv ihr => trivial

/-- Simulation of the walk on accepted trees whose leaves leave the
`_settings_obj` slot alone: starting from a namespace whose
`_settings_obj` slot holds the store or None, the walk raises nothing,
assigns exactly the resolved leaf values in walk order (each leaf reading
the unclobbered slot), and makes exactly the registrations dictated by
the flags. -/
theorem load_entry_accepted (captured : PyVal) (i sp : Bool) (h : Handler)
    (hcap : i = true → isStoreVal captured = true) :
    ∀ v : PyVal, ∀ st so, accepted v = true →
      "_settings_obj" ∉ leafAttrNames v →
      getAttr st.attrs "_settings_obj" = some so →
      isStoreOrNone so = true →
      load_entry captured i sp h v st =
        ⟨withAttrs st (assignAll so (leafTriples v) st.attrs),
         regsOf i sp h (leafNodes v), none⟩ := by
  intro v
  induction v using PyVal.rec
    (motive_2 := fun xs => ∀ st so, acceptedList xs = true →
      "_settings_obj" ∉ (leafTriplesList xs).map (fun q => q.1) →
      getAttr st.attrs "_settings_obj" = some so →
      isStoreOrNone so = true →
      load_entry_list captured i sp h xs st =
        ⟨withAttrs st (assignAll so (leafTriplesList xs) st.attrs),
         regsOf i sp h (leafNodesList xs), none⟩)
    (motive_3 := fun _ => True) with
  | pstr s =>
      intro st so hacc hno hso hval
      have hleaf : isLeafFormB (.pstr s) = true := hacc
      exact load_entry_leafForm captured i sp h _ st so hleaf hso hval hcap
  | pint n => intro st so hacc hno hso hval; simp [accepted] at hacc
  | pbool b => intro st so hacc hno hso hval; simp [accepted] at hacc
  | pnone => intro st so hacc hno hso hval; simp [accepted] at hacc
  | ellipsis => intro st so hacc hno hso hval; simp [accepted] at hacc
  | pstore d2 ihd => intro st so hacc hno hso hval; simp [accepted] at hacc
  | ptuple xs ihl =>
      intro st so hacc hno hso hval
      cases hlf : isLeafFormB (.ptuple xs) with
      | true => exact load_entry_leafForm captured i sp h _ st so hlf hso hval hcap
      | false =>
          have hacc2 : (isLeafFormB (.ptuple xs) || acceptedList xs) = true := hacc
          rw [hlf] at hacc2
          simp only [Bool.false_or] at hacc2
          have hise : is_setting_entry (.ptuple xs) = .ok false := by
            rw [is_setting_entry_eq (.ptuple xs) rfl, hlf]
          have hno2 : "_settings_obj" ∉ (leafTriplesList xs).map (fun q => q.1) := by
            simpa [leafAttrNames, leafTriples, leafNodes, hlf, leafTriplesList]
              using hno
          simp only [load_entry]
          rw [hise, ihl st so hacc2 hno2 hso hval,
            show leafNodes (.ptuple xs) = leafNodesList xs from by
              simp [leafNodes, hlf],
            show leafTriples (.ptuple xs) = leafTriplesList xs from by
              simp [leafTriples, leafNodes, hlf, leafTriplesList]]
  | nil =>
      rename_i st so hacc hno hso hval
      simp [load_entry_list, leafTriplesList, leafNodesList, assignAll, regsOf,
        withAttrs_self]
  | cons x rest ihx ihrest =>
      rename_i st so hacc hno hso hval
      have hx : accepted x = true ∧ acceptedList rest = true := by
        simpa [acceptedList, Bool.and_eq_true] using hacc
      rw [show (leafTriplesList (PyList.cons x rest)).map (fun q => q.1)
            = (leafTriples x).map (fun q => q.1)
              ++ (leafTriplesList rest).map (fun q => q.1)
          from by rw [leafTriplesList_cons, List.map_append]] at hno
      simp only [List.mem_append, not_or] at hno
      obtain ⟨hno1, hno2⟩ := hno
      simp only [load_entry_list]
      rw [ihx st so hx.1 hno1 hso hval]
      simp only []
      have hso1 : getAttr (withAttrs st (assignAll so (leafTriples x) st.attrs)).attrs
          "_settings_obj" = some so := by
        show getAttr (assignAll so (leafTriples x) st.attrs) "_settings_obj" = some so
        rw [getAttr_assignAll_notin so _ _ _ hno1, hso]
      rw [ihrest _ so hx.2 hno2 hso1 hval]
      simp only [leafTriplesList_cons, assignAll_append,
        show leafNodesList (PyList.cons x rest) = leafNodes x ++ leafNodesList rest
          from rfl,
        regsOf_append, withAttrs_withAttrs]
      rfl
  | pnil => trivial
  | pcons k v rest ihk ihv ihr => trivial

/-- One load call while the host API is ready, on an accepted tree whose
leaves leave the `_settings_obj` slot alone: the freshly loaded store is
assigned into `_settings_obj`, every leaf is resolved against it and
assigned, registrations follow the flags, nothing is scheduled and
nothing is raised. -/
theorem load_settings_ready (host : String → PyPairs) (file : String)
    (etreeArg : Option PyVal) (au sp : Bool) (st : Obj)
    (hacc : accepted (etreeArg.getD (objSettingEntries st)) = true)
    (hno : "_settings_obj" ∉ leafAttrNames (etreeArg.getD (objSettingEntries st))) :
    load_settings true host file etreeArg au sp st =
      ⟨⟨assignAll (.pstore (host file))
          (leafTriples (etreeArg.getD (objSettingEntries st)))
          (setAttrList st.attrs "_settings_obj" (.pstore (host file))),
        st.settingEntries⟩,
       regsOf au sp (Handler.shared (etreeArg.getD (objSettingEntries st)) au sp)
         (leafNodes (etreeArg.getD (objSettingEntries st))), [], none⟩ := by
  have hst1 : getAttr (setAttr st "_settings_obj" (.pstore (host file))).attrs
      "_settings_obj" = some (.pstore (host file)) := by
    simp [setAttr, getAttr_setAttrList]
  have hw := load_entry_accepted (.pstore (host file)) au sp
    (Handler.shared (etreeArg.getD (objSettingEntries st)) au sp)
    (fun _ => rfl)
    (etreeArg.getD (objSettingEntries st))
    (setAttr st "_settings_obj" (.pstore (host file)))
    (.pstore (host file))
    hacc hno hst1 rfl
  simp only [load_settings, reload_settings, if_true]
  rw [hst1]
  simp only []
  rw [hw]
  rfl

/-- One load call while the host API is not ready, on an accepted tree
whose leaves leave the `_settings_obj` slot alone: None is assigned into
`_settings_obj`, every leaf is assigned its default, no handler is
registered, the `_loader` retry is scheduled after 500 ms and nothing is
raised. -/
theorem load_settings_notReady (host : String → PyPairs) (file : String)
    (etreeArg : Option PyVal) (au sp : Bool) (st : Obj)
    (hacc : accepted (etreeArg.getD (objSettingEntries st)) = true)
    (hno : "_settings_obj" ∉ leafAttrNames (etreeArg.getD (objSettingEntries st))) :
    load_settings false host file etreeArg au sp st =
      ⟨⟨assignAll .pnone (leafTriples (etreeArg.getD (objSettingEntries st)))
          (setAttrList st.attrs "_settings_obj" .pnone),
        st.settingEntries⟩, [],
       [Timeout.loader file (etreeArg.getD (objSettingEntries st)) au sp 500],
       none⟩ := by
  have hst1 : getAttr (setAttr st "_settings_obj" .pnone).attrs "_settings_obj"
      = some .pnone := by
    simp [setAttr, getAttr_setAttrList]
  have hw := load_entry_accepted .pnone false false
    (Handler.shared (etreeArg.getD (objSettingEntries st)) false false)
    (fun hx => by simp at hx)
    (etreeArg.getD (objSettingEntries st))
    (setAttr st "_settings_obj" .pnone)
    .pnone
    hacc hno hst1 rfl
  simp only [load_settings, reload_settings, if_false]
  rw [hst1]
  simp only []
  rw [hw]
  simp [regsOf]
  rfl

/-- On the not-ready path the resulting object is that of the reload, on
both the raising and the non-raising branch. -/
theorem load_settings_false_obj (host : String → PyPairs) (file : String)
    (etreeArg : Option PyVal) (au sp : Bool) (st : Obj) :
    (load_settings false host file etreeArg au sp st).obj
      = (reload_settings (setAttr st "_settings_obj" .pnone)
          (etreeArg.getD (objSettingEntries st)) false false).obj := by
  simp only [load_settings]
  cases herr : (reload_settings (setAttr st "_settings_obj" .pnone)
      (etreeArg.getD (objSettingEntries st)) false false).err <;> rfl

/-- C1: The debounce contract is broken in the code. The shared
`update_handler` closure (lines 100-103) calls
`self.__delay_reload_settings(entry_tree, install_update_handler, sparse)`
with three positional arguments, but the method definition at line 144
accepts only `self`, so every change notification raises a TypeError
instead of debouncing; the object is unchanged and no reload is ever
scheduled. Moreover `_settings_update_time` is never assigned anywhere in
the class, so even a correctly-aried call would raise AttributeError at
line 148; and the `set_timeout(self.__reload_settings, 2)` at line 150
omits the required `entry_tree` argument, so a scheduled reload would
itself raise when fired. -/
theorem c1_update_handler_arity_bug :
    (load_settings true hostX "Prefs"
        (some (tup1 (mkLeaf "y" (.pstr "") (.pint 3)))) true false obj0).regs
      = [(mkLeaf "y" (.pstr "") (.pint 3),
          Handler.shared (tup1 (mkLeaf "y" (.pstr "") (.pint 3))) true false)] ∧
    invokeHandler 7
        (Handler.shared (tup1 (mkLeaf "y" (.pstr "") (.pint 3))) true false)
        (load_settings true hostX "Prefs"
          (some (tup1 (mkLeaf "y" (.pstr "") (.pint 3)))) true false obj0).obj
      = ⟨(load_settings true hostX "Prefs"
            (some (tup1 (mkLeaf "y" (.pstr "") (.pint 3)))) true false obj0).obj,
         [], some (.typeError (delayReloadArityMsg 3))⟩ ∧
    delay_reload_settings_call 7 0
        (load_settings true hostX "Prefs"
          (some (tup1 (mkLeaf "y" (.pstr "") (.pint 3)))) true false obj0).obj
      = ⟨(load_settings true hostX "Prefs"
            (some (tup1 (mkLeaf "y" (.pstr "") (.pint 3)))) true false obj0).obj,
         [], some (.attributeError noUpdateTimeMsg)⟩ ∧
    (runTimeout true hostX (Timeout.reloadSettingsNoArgs 2) obj0).err.isSome = true ∧
    (runTimeout true hostX (Timeout.reloadSettingsNoArgs 2) obj0).obj = obj0 := by
  exact ⟨rfl, rfl, rfl, rfl, rfl⟩

/-- C5 counterexample: for the node `42` (no `__len__`), the TypeError
comes from the `len()` call inside `_is_setting_entry`, whose message
names only the type; it is not the formatted message of the explicit
raise and contains no readable dump of the offending value (the dump
`42` is not a substring). This refutes the claim's clause that for every
bad node the error message identifies the offending value with a dump. -/
theorem c5_no_len_counterexample :
    (load_entry .pnone false false (Handler.shared (.ptuple .nil) false false)
      (.pint 42) obj0).err = some (.typeError (noLenMsg (.pint 42))) ∧
    noLenMsg (.pint 42) ≠ badEntryMsg (.pint 42) ∧
    ¬ List.IsInfix (pyRepr (.pint 42)).toList (noLenMsg (.pint 42)).toList := by
  refine ⟨rfl, by decide, by decide⟩

/-- C5 amended: for every tree node that is neither of leaf form nor a
tuple, the walk stops at that node with the object unchanged and a
TypeError propagating: the explicitly raised error, whose message holds
the type and a readable dump of the value, when the node supports
`len()`; the TypeError of the `len()` call itself, which names only the
type, when it does not. The loop lemma shows loading halts there: later
siblings are not processed. -/
theorem c5_bad_entry_type_error (captured : PyVal) (i sp : Bool) (h : Handler)
    (v : PyVal) (st : Obj) (hleaf : isLeafFormB v = false)
    (htup : isTupleVal v = false) :
    load_entry captured i sp h v st
      = ⟨st, [], some (.typeError
          (if hasLen v = true then badEntryMsg v else noLenMsg v))⟩ ∧
    ∀ rest, load_entry_list captured i sp h (.cons v rest) st
      = ⟨st, [], some (.typeError
          (if hasLen v = true then badEntryMsg v else noLenMsg v))⟩ := by
  have hmain : load_entry captured i sp h v st
      = ⟨st, [], some (.typeError
          (if hasLen v = true then badEntryMsg v else noLenMsg v))⟩ := by
    cases v with
    | pstr s =>
        simp only [load_entry]
        rw [show is_setting_entry (.pstr s) = Except.ok false from by
          simpa [is_setting_entry, isLeafFormB] using hleaf]
        simp [hasLen]
    | ptuple xs => simp [isTupleVal] at htup
    | pint n => simp [load_entry, is_setting_entry, hasLen]
    | pbool b => simp [load_entry, is_setting_entry, hasLen]
    | pnone => simp [load_entry, is_setting_entry, hasLen]
    | ellipsis => simp [load_entry, is_setting_entry, hasLen]
    | pstore d2 => simp [load_entry, is_setting_entry, hasLen]
  refine ⟨hmain, ?_⟩
  intro rest
  simp only [load_entry_list]
  rw [hmain]

/-- Witness for C5 at the 2-character string `no`, which supports `len()`
and hits the explicit raise with the formatted dump message. -/
theorem c5_bad_entry_type_error_witness :
    isLeafFormB (.pstr "no") = false ∧ isTupleVal (.pstr "no") = false ∧
    load_entry .pnone false false (Handler.shared (.ptuple .nil) false false)
        (.pstr "no") obj0
      = ⟨obj0, [], some (.typeError (badEntryMsg (.pstr "no")))⟩ ∧
    load_entry_list .pnone false false (Handler.shared (.ptuple .nil) false false)
        (.cons (.pstr "no") .nil) obj0
      = ⟨obj0, [], some (.typeError (badEntryMsg (.pstr "no")))⟩ := by
  have h := c5_bad_entry_type_error .pnone false false
    (Handler.shared (.ptuple .nil) false false) (.pstr "no") obj0 (by decide) (by decide)
  exact ⟨by decide, by decide, h.1, h.2 .nil⟩

/-- C7 counterexample: the valid single-leaf tree `(("_settings_obj","",99),)`
makes the ready-path call end with the `_settings_obj` slot holding 99
— the walk's `setattr` writes the same instance namespace — not the
freshly loaded store, refuting the claim that every call leaves the
reference equal to the fresh store (ready) or None (not ready). -/
theorem c7_clobber_counterexample :
    accepted collisionOnly = true ∧
    (load_settings true host0 "S" (some collisionOnly) true false obj0).err = none ∧
    getAttr (load_settings true host0 "S" (some collisionOnly) true false
      obj0).obj.attrs "_settings_obj" = some (.pint 99) ∧
    some (PyVal.pint 99) ≠ some (PyVal.pstore (host0 "S")) := by
  exact ⟨by decide, rfl, rfl, by decide⟩

/-- C7 amended: every load_settings call replaces the `_settings_obj`
slot before the walk — with the freshly loaded store for the given file
when the host API is ready, with None when it is not — and, provided no
leaf of the tree (well-formed or not) declares an attribute named
`_settings_obj`, the slot still holds that replacement when the call
ends, on every path, including when the walk raises on a malformed
tree. When a leaf does declare `_settings_obj`, its resolved value
overwrites the fresh reference, as the counterexample shows. -/
theorem c7_settings_obj_replaced (ready : Bool) (host : String → PyPairs)
    (file : String) (etreeArg : Option PyVal) (au sp : Bool) (st : Obj)
    (hno : "_settings_obj" ∉ leafAttrNames (etreeArg.getD (objSettingEntries st))) :
    getAttr (load_settings ready host file etreeArg au sp st).obj.attrs
      "_settings_obj"
      = some (if ready then .pstore (host file) else .pnone) := by
  cases ready with
  | true =>
      have hst1 : getAttr (setAttr st "_settings_obj" (.pstore (host file))).attrs
          "_settings_obj" = some (.pstore (host file)) := by
        simp [setAttr, getAttr_setAttrList]
      simp only [load_settings, reload_settings, if_true]
      rw [hst1]
      simp only []
      rw [load_entry_preserves_name (.pstore (host file)) au sp
        (Handler.shared (etreeArg.getD (objSettingEntries st)) au sp)
        (etreeArg.getD (objSettingEntries st))
        (setAttr st "_settings_obj" (.pstore (host file))) "_settings_obj" hno,
        hst1]
  | false =>
      have hst1 : getAttr (setAttr st "_settings_obj" .pnone).attrs "_settings_obj"
          = some .pnone := by
        simp [setAttr, getAttr_setAttrList]
      rw [show (load_settings false host file etreeArg au sp st).obj
          = (reload_settings (setAttr st "_settings_obj" .pnone)
              (etreeArg.getD (objSettingEntries st)) false false).obj from
        load_settings_false_obj host file etreeArg au sp st]
      simp only [reload_settings]
      rw [hst1]
      simp only []
      rw [load_entry_preserves_name .pnone false false
        (Handler.shared (etreeArg.getD (objSettingEntries st)) false false)
        (etreeArg.getD (objSettingEntries st))
        (setAttr st "_settings_obj" .pnone) "_settings_obj" hno,
        hst1]
      rfl

/-- Witness for C7 on both readiness values at a concrete tree. -/
theorem c7_settings_obj_replaced_witness :
    "_settings_obj" ∉ leafAttrNames pairTree ∧
    getAttr (load_settings true host0 "Q" (some pairTree) true false
      obj0).obj.attrs "_settings_obj" = some (.pstore (host0 "Q")) ∧
    getAttr (load_settings false host0 "Q" (some pairTree) true false
      obj0).obj.attrs "_settings_obj" = some .pnone := by
  refine ⟨by decide, ?_, ?_⟩
  · exact c7_settings_obj_replaced true host0 "Q" (some pairTree) true false obj0
      (by decide)
  · exact c7_settings_obj_replaced false host0 "Q" (some pairTree) true false obj0
      (by decide)

/-- C8: the recursive walk of one load (or reload) call terminates on
every finite entry tree: with recursion budget (fuel) at least the
nesting depth of the tree, the fuel-indexed walk completes and returns
exactly the result of the total walk, never exhausting the budget.
Cyclic trees are not representable as inductive values, matching the
spec's exclusion of them as the only source of unbounded recursion. -/
theorem c8_walk_terminates_with_depth_fuel (captured : PyVal) (i sp : Bool)
    (h : Handler) :
    ∀ (v : PyVal) (fuel : Nat) (st : Obj), pyDepth v ≤ fuel →
      load_entry_fuel fuel captured i sp h v st
        = some (load_entry captured i sp h v st) := by
  intro v
  induction v using PyVal.rec
    (motive_2 := fun xs => ∀ fuel st, pyDepthList xs ≤ fuel →
      load_entry_list_fuel fuel captured i sp h xs st
        = some (load_entry_list captured i sp h xs st))
    (motive_3 := fun _ => True) with
  | pstr s =>
      intro fuel st hf
      cases fuel with
      | zero => simp [pyDepth] at hf
      | succ n =>
          cases hise : is_setting_entry (.pstr s) with
          | error e => simp [load_entry_fuel, load_entry, hise]
          | ok b =>
              cases b with
              | true =>
                  cases hp : process_setting_entry st (.pstr s) with
                  | error e => simp [load_entry_fuel, load_entry, hise, hp]
                  | ok pr =>
                      obtain ⟨st2, k2⟩ := pr
                      cases i <;> cases hcv : isStoreVal captured <;>
                        simp [load_entry_fuel, load_entry, hise, hp, hcv]
              | false => simp [load_entry_fuel, load_entry, hise]
  | pint m =>
      intro fuel st hf
      cases fuel with
      | zero => simp [pyDepth] at hf
      | succ n => simp [load_entry_fuel, load_entry, is_setting_entry]
  | pbool b =>
      intro fuel st hf
      cases fuel with
      | zero => simp [pyDepth] at hf
      | succ n => simp [load_entry_fuel, load_entry, is_setting_entry]
  | pnone =>
      intro fuel st hf
      cases fuel with
      | zero => simp [pyDepth] at hf
      | succ n => simp [load_entry_fuel, load_entry, is_setting_entry]
  | ellipsis =>
      intro fuel st hf
      cases fuel with
      | zero => simp [pyDepth] at hf
      | succ n => simp [load_entry_fuel, load_entry, is_setting_entry]
  | pstore d2 ihd =>
      intro fuel st hf
      cases fuel with
      | zero => simp [pyDepth] at hf
      | succ n => simp [load_entry_fuel, load_entry, is_setting_entry]
  | ptuple xs ihl =>
      intro fuel st hf
      cases fuel with
      | zero => simp [pyDepth] at hf
      | succ n =>
          cases hise : is_setting_entry (.ptuple xs) with
          | error e => simp [load_entry_fuel, load_entry, hise]
          | ok b =>
              cases b with
              | true =>
                  cases hp : process_setting_entry st (.ptuple xs) with
                  | error e => simp [load_entry_fuel, load_entry, hise, hp]
                  | ok pr =>
                      obtain ⟨st2, k2⟩ := pr
                      cases i <;> cases hcv : isStoreVal captured <;>
                        simp [load_entry_fuel, load_entry, hise, hp, hcv]
              | false =>
                  have hd : pyDepthList xs ≤ n := by
                    simp [pyDepth] at hf
                    omega
                  simp [load_entry_fuel, load_entry, hise, ihl n st hd]
  | nil =>
      rename_i fuel st hf
      simp [load_entry_list_fuel, load_entry_list]
  | cons x rest ihx ihrest =>
      rename_i fuel st hf
      have hfx : pyDepth x ≤ fuel := by
        simp [pyDepthList] at hf
        omega
      have hfr : pyDepthList rest ≤ fuel := by
        simp [pyDepthList] at hf
        omega
      simp only [load_entry_list_fuel, load_entry_list]
      rw [ihx fuel st hfx]
      cases hx : load_entry captured i sp h x st with
      | mk st1 regs1 err1 =>
          cases err1 with
          | some e => simp
          | none =>
              simp only []
              rw [ihrest fuel st1 hfr]
  | pnil => trivial
  | pcons k v rest ihk ihv ihr => trivial

/-- Witness for C8 at the nested sample tree with fuel equal to 4. -/
theorem c8_walk_terminates_with_depth_fuel_witness :
    pyDepth nestedTree ≤ 4 ∧
    load_entry_fuel 4 .pnone false false (Handler.shared nestedTree false false)
        nestedTree obj0
      = some (load_entry .pnone false false (Handler.shared nestedTree false false)
          nestedTree obj0) := by
  exact ⟨by decide, c8_walk_terminates_with_depth_fuel .pnone false false
    (Handler.shared nestedTree false false) nestedTree 4 obj0 (by decide)⟩

/-- C9: Calling load_settings with the empty tuple as the entry tree (the
declared default value of `setting_entries`) completes without raising
and registers no change handlers; the walk itself assigns nothing — the
only namespace write of the call is `load_settings`'s own replacement of
the `_settings_obj` slot (the store when ready, None when not), which
happens before the walk on every call. -/
theorem c9_empty_tree_noop (ready : Bool) (host : String → PyPairs) (file : String)
    (au sp : Bool) (st : Obj) :
    (load_settings ready host file (some (.ptuple .nil)) au sp st).err = none ∧
    (load_settings ready host file (some (.ptuple .nil)) au sp st).obj.attrs
      = setAttrList st.attrs "_settings_obj"
          (if ready then .pstore (host file) else .pnone) ∧
    (load_settings ready host file (some (.ptuple .nil)) au sp st).regs = [] := by
  cases ready with
  | true =>
      rw [load_settings_ready host file (some (.ptuple .nil)) au sp st rfl
        (by exact List.not_mem_nil _)]
      exact ⟨rfl, rfl, by simp [regsOf, leafNodes, leafNodesList, isLeafFormB,
        PyList.length, isStringVal, PyList.headD]⟩
  | false =>
      rw [load_settings_notReady host file (some (.ptuple .nil)) au sp st rfl
        (by exact List.not_mem_nil _)]
      exact ⟨rfl, rfl, rfl⟩

end DeclSettings
